import Mathlib

/-!
Verification of the EnergyConsumptionForecasting preprocessing and data-loading
pipeline.  The pandas DataFrame is embedded as a timestamp index (natural
numbers, e.g. minutes since an epoch) together with named columns of optional
rationals; `none` plays the role of NaN / a missing value.  All operations are
translated from src/preprocessing.py and src/data_loader.py.
-/

namespace EnergyForecast

/-- A cell value: `none` models NaN / missing, `some q` a numeric value. -/
abbrev Value := Option ℚ

/-- A tabular dataset: a timestamp index and named numeric columns
(src: the pandas DataFrame used throughout both modules). -/
structure DataFrame where
  index : List ℕ
  cols : List (String × List Value)
deriving DecidableEq

/-- Column access `df[col]`; a missing label yields the empty column. -/
def getCol (df : DataFrame) (c : String) : List Value :=
  match df.cols.find? (fun p => p.1 = c) with
  | some p => p.2
  | none => []

/-- Boolean-mask row selection, as in `df[mask]`: keep the entries whose
mask position is `true`. -/
def applyMask : List Bool → List α → List α
  | true :: ms, x :: xs => x :: applyMask ms xs
  | false :: ms, _ :: xs => applyMask ms xs
  | _, _ => []

/-- Apply a row mask to the whole frame (index and every column). -/
def maskDf (mask : List Bool) (df : DataFrame) : DataFrame :=
  { index := applyMask mask df.index
    cols := df.cols.map (fun p => (p.1, applyMask mask p.2)) }

/-! ## Missing-value handling (src/preprocessing.py, handle_missing_values) -/

/-- The configured `preprocessing.fill_method` (e.g. `ffill`). -/
inductive FillMethod
  | ffill
  | bfill
deriving DecidableEq

/-- Largest position `j ≤ i` holding a valid (non-NaN) value, with that value. -/
def findPrevValid (col : List Value) : ℕ → Option (ℕ × ℚ)
  | 0 =>
    match col.get? 0 with
    | some (some v) => some (0, v)
    | _ => none
  | i + 1 =>
    match col.get? (i + 1) with
    | some (some v) => some (i + 1, v)
    | _ => findPrevValid col i

/-- First valid entry of a list, with its offset. -/
def findFirstValid : List Value → Option (ℕ × ℚ)
  | [] => none
  | some v :: _ => some (0, v)
  | none :: rest => (findFirstValid rest).map (fun p => (p.1 + 1, p.2))

/-- Smallest position `k ≥ i` holding a valid value, with that value. -/
def findNextValid (col : List Value) (i : ℕ) : Option (ℕ × ℚ) :=
  (findFirstValid (List.drop i col)).map (fun p => (i + p.1, p.2))

/-- The entry position `i` receives under `fillna(method=..., limit=...)`:
a present value is kept; a missing one is replaced by the nearest valid value
in the fill direction provided it lies at most `limit` positions away (pandas
fills only the first `limit` consecutive NaNs of a gap). -/
def fillAt (m : FillMethod) (limit : ℕ) (col : List Value) (i : ℕ) : Value :=
  match col.get? i with
  | some (some v) => some v
  | _ =>
    match m with
    | FillMethod.ffill =>
      match findPrevValid col i with
      | some (j, v) => if i - j ≤ limit then some v else none
      | none => none
    | FillMethod.bfill =>
      match findNextValid col i with
      | some (j, v) => if j - i ≤ limit then some v else none
      | none => none

/-- `df.fillna(method=fill_method, limit=...)` on one column. -/
def fillCol (m : FillMethod) (limit : ℕ) (col : List Value) : List Value :=
  (List.range col.length).map (fillAt m limit col)

/-- The entry position `i` receives under
`interpolate(method='linear', limit_direction='both')`: interior gaps are
filled linearly between the surrounding valid values at equal spacing; a gap
at the start (resp. end) of the series, having only one neighbour, receives
that neighbour's value. -/
def interpAt (col : List Value) (i : ℕ) : Value :=
  match col.get? i with
  | some (some v) => some v
  | _ =>
    match findPrevValid col i, findNextValid col i with
    | some (j, vj), some (k, vk) =>
      some (vj + (vk - vj) * (((i : ℚ) - (j : ℚ)) / ((k : ℚ) - (j : ℚ))))
    | none, some (_, vk) => some vk
    | some (_, vj), none => some vj
    | none, none => none

/-- `df.interpolate(method='linear', limit_direction='both')` on one column. -/
def interpCol (col : List Value) : List Value :=
  (List.range col.length).map (interpAt col)

/-- Apply a column transformation to every column, keeping the index. -/
def mapCols (f : List Value → List Value) (df : DataFrame) : DataFrame :=
  { index := df.index, cols := df.cols.map (fun p => (p.1, f p.2)) }

/-- Step 1 of handle_missing_values: bounded fill on every column. -/
def fillDf (m : FillMethod) (limit : ℕ) (df : DataFrame) : DataFrame :=
  mapCols (fillCol m limit) df

/-- Step 2 of handle_missing_values: linear interpolation on every column. -/
def interpDf (df : DataFrame) : DataFrame :=
  mapCols interpCol df

/-- Row `i` has a valid value in every column. -/
def rowComplete (df : DataFrame) (i : ℕ) : Bool :=
  df.cols.all (fun p => ((p.2.get? i).getD none).isSome)

/-- Mask of the rows kept by `df.dropna()`. -/
def keepRowMask (df : DataFrame) : List Bool :=
  (List.range df.index.length).map (fun i => rowComplete df i)

/-- `df.dropna()`: drop every row still containing a missing value. -/
def dropna (df : DataFrame) : DataFrame :=
  maskDf (keepRowMask df) df

/-- `DataPreprocessor.handle_missing_values`: bounded fill (limit 6), then
bidirectional linear interpolation, then drop the rows still incomplete
(src/preprocessing.py lines 19-37). -/
def handle_missing_values (m : FillMethod) (df : DataFrame) : DataFrame :=
  dropna (interpDf (fillDf m 6 df))

/-! ## Outlier removal (src/preprocessing.py, remove_outliers) -/

/-- The valid (non-NaN) values of a column. -/
def extractVals (col : List Value) : List ℚ := col.filterMap id

/-- Does the column contain a NaN?  (NaNs poison `stats.zscore`.) -/
def hasMissing (col : List Value) : Bool := col.any (fun v => v.isNone)

/-- Population mean (`0` on the empty list, mirroring 0/0). -/
def popMean (xs : List ℚ) : ℚ := xs.sum / (xs.length : ℚ)

/-- Population variance, denominator `n` as in `scipy.stats.zscore`. -/
def popVar (xs : List ℚ) : ℚ :=
  (xs.map (fun x => (x - popMean xs) ^ 2)).sum / (xs.length : ℚ)

/-- Does the entry pass `|zscore| < threshold`?  For a real value `x` with
population mean `mean` and variance `v > 0` this is exactly
`(x - mean)^2 < T^2 * v` together with `0 < T`; a NaN never passes. -/
def keepEntry (T mean v : ℚ) : Value → Bool
  | none => false
  | some x => decide (0 < T ∧ (x - mean) ^ 2 < T ^ 2 * v)

/-- The row mask `np.abs(stats.zscore(df[col])) < threshold`.  When the column
contains a NaN, or its population variance is zero, every z-score is NaN
(0/0 or x/0 propagation) and the strict comparison fails on every row. -/
def zKeepMask (T : ℚ) (col : List Value) : List Bool :=
  if hasMissing col = true ∨ popVar (extractVals col) = 0 then
    col.map (fun _ => false)
  else
    col.map (keepEntry T (popMean (extractVals col)) (popVar (extractVals col)))

/-- One iteration of the loop in remove_outliers:
`z = np.abs(stats.zscore(df[col])); df = df[z < threshold]`. -/
def filterOnCol (T : ℚ) (df : DataFrame) (c : String) : DataFrame :=
  maskDf (zKeepMask T (getCol df c)) df

/-- `DataPreprocessor.remove_outliers`: sequential left fold of the per-column
filter over the column list (src/preprocessing.py lines 39-56). -/
def remove_outliers (T : ℚ) (columns : List String) (df : DataFrame) : DataFrame :=
  columns.foldl (filterOnCol T) df

/-! ## Temporal aggregation (src/preprocessing.py, aggregate_data) -/

/-- The bucket (period start) a timestamp falls into at granularity `p`. -/
def bucketOf (p t : ℕ) : ℕ := t / p * p

/-- The column values whose row timestamp falls into bucket `b`. -/
def colValsInBucket (p b : ℕ) (idx : List ℕ) (col : List Value) : List Value :=
  ((idx.zip col).filter (fun q => bucketOf p q.1 = b)).map Prod.snd

/-- `mean` aggregation of a bucket: NaN-skipping mean; NaN if no valid value. -/
def meanAgg (vals : List Value) : Value :=
  if (extractVals vals).length = 0 then none
  else some (popMean (extractVals vals))

/-- `sum` aggregation of a bucket: NaN-skipping sum; `0` if no valid value. -/
def sumAgg (vals : List Value) : Value :=
  some (extractVals vals).sum

/-- `n` consecutive period starts from `lo`, step `p`. -/
def periodicList (lo p : ℕ) : ℕ → List ℕ
  | 0 => []
  | n + 1 => lo :: periodicList (lo + p) p n

/-- The resampled index: one bucket per period from the bucket of the smallest
timestamp to the bucket of the largest, step `p`; empty input stays empty. -/
def bucketList (p : ℕ) (idx : List ℕ) : List ℕ :=
  match idx with
  | [] => []
  | t :: ts =>
    let lo := bucketOf p (ts.foldl Nat.min t)
    let hi := bucketOf p (ts.foldl Nat.max t)
    periodicList lo p ((hi - lo) / p + 1)

/-- Aggregate one named column over every bucket with aggregator `how`. -/
def aggCol (how : List Value → Value) (p : ℕ) (df : DataFrame) (c : String) :
    List Value :=
  (bucketList p df.index).map (fun b => how (colValsInBucket p b df.index (getCol df c)))

/-- `DataPreprocessor.aggregate_data`: resample to granularity `p`, taking the
mean of the four power/voltage/intensity columns and the sum of the three
sub-metering columns (src/preprocessing.py lines 58-77). -/
def aggregate_data (p : ℕ) (df : DataFrame) : DataFrame :=
  { index := bucketList p df.index
    cols := [
      ("Global_active_power", aggCol meanAgg p df "Global_active_power"),
      ("Global_reactive_power", aggCol meanAgg p df "Global_reactive_power"),
      ("Voltage", aggCol meanAgg p df "Voltage"),
      ("Global_intensity", aggCol meanAgg p df "Global_intensity"),
      ("Sub_metering_1", aggCol sumAgg p df "Sub_metering_1"),
      ("Sub_metering_2", aggCol sumAgg p df "Sub_metering_2"),
      ("Sub_metering_3", aggCol sumAgg p df "Sub_metering_3")] }

/-- `DataPreprocessor.preprocess_pipeline`: gap handling, then aggregation,
then outlier removal on all (numeric) columns, in that fixed order. -/
def preprocess_pipeline (m : FillMethod) (T : ℚ) (p : ℕ) (df : DataFrame) :
    DataFrame :=
  let agg := aggregate_data p (handle_missing_values m df)
  remove_outliers T (agg.cols.map Prod.fst) agg

/-! ## Data loader (src/data_loader.py) -/

/-- The error raised by the loader: `FileNotFoundError` is a distinct
condition, separate from any other I/O failure. -/
inductive LoadError
  | fileNotFound
  | ioError
deriving DecidableEq

/-- A persisted processed file: the header row (the column labels, the
leading index cell being implicit) and the data rows, each a timestamp
followed by the column cells of that row. -/
structure CsvFile where
  header : List String
  rows : List (ℕ × List Value)
deriving DecidableEq

/-- The file system visible to the loader: a mapping from path to content. -/
structure FileSystem where
  files : List (String × CsvFile)
deriving DecidableEq

/-- Read the content at a path, if the file exists. -/
def lookupFile (fs : FileSystem) (path : String) : Option CsvFile :=
  (fs.files.find? (fun p => p.1 = path)).map Prod.snd

/-- Store content at a path (overwriting any previous content). -/
def putFile (fs : FileSystem) (path : String) (f : CsvFile) : FileSystem :=
  { files := (path, f) :: fs.files }

/-- The configuration keys the loader consumes for processed-file I/O. -/
structure Config where
  processed_path : String
deriving DecidableEq

/-- `os.path.join` on the processed directory and a file name. -/
def pathJoin (a b : String) : String := a ++ "/" ++ b

/-- `df.to_csv(filepath)`: the timestamp key becomes the leading column,
then one cell per column, row by row. -/
def toCsv (df : DataFrame) : CsvFile :=
  { header := df.cols.map Prod.fst
    rows := (List.range df.index.length).map (fun i =>
      ((df.index.get? i).getD 0, df.cols.map (fun p => (p.2.get? i).getD none))) }

/-- Rebuild the named columns from CSV rows: column `j` of the frame is the
`j`-th cell of every row. -/
def colsFromRows : List String → ℕ → List (ℕ × List Value) → List (String × List Value)
  | [], _, _ => []
  | nm :: rest, j, rows =>
    (nm, rows.map (fun r => (r.2.get? j).getD none)) :: colsFromRows rest (j + 1) rows

/-- `pd.read_csv(path, index_col=0, parse_dates=True)`: the first column is
parsed as the timestamp index, the remaining cells as the named columns. -/
def fromCsv (f : CsvFile) : DataFrame :=
  { index := f.rows.map Prod.fst, cols := colsFromRows f.header 0 f.rows }

/-- `DataLoader.load_processed_data` (src/data_loader.py lines 57-70):
raises `FileNotFoundError` when the joined path does not exist, otherwise
reads the table with the first column as parsed timestamp index. -/
def load_processed_data (cfg : Config) (fs : FileSystem) (filename : String) :
    Except LoadError DataFrame :=
  match lookupFile fs (pathJoin cfg.processed_path filename) with
  | none => Except.error LoadError.fileNotFound
  | some f => Except.ok (fromCsv f)

/-- `DataLoader.save_processed_data` (src/data_loader.py lines 72-81):
writes the table as delimited text under the processed directory. -/
def save_processed_data (cfg : Config) (fs : FileSystem) (df : DataFrame)
    (filename : String) : FileSystem :=
  putFile fs (pathJoin cfg.processed_path filename) (toCsv df)

/-! ## Concrete frames used by the individual claims -/

/-- The table is empty: no row in the index and none in any column. -/
def IsEmptyDf (df : DataFrame) : Prop :=
  df.index = [] ∧ (df.cols.all (fun p => p.2.isEmpty)) = true

/-- Counterexample frame for the full-population z-score reading: column A
drops row 3 first, after which B's z-scores are computed over rows 0-2 only. -/
def dfC1 : DataFrame :=
  { index := [0, 1, 2, 3]
    cols := [("A", [some 0, some 0, some 0, some 9]),
             ("B", [some 10, some 0, some 0, some 0])] }

/-- Witness frame for the at-turn z-score property (same data as `dfC1`). -/
def dfC1w : DataFrame :=
  { index := [0, 1, 2, 3]
    cols := [("A", [some 0, some 0, some 0, some 9]),
             ("B", [some 10, some 0, some 0, some 0])] }

/-- Frame on which the two column iteration orders retain different rows. -/
def dfC5 : DataFrame :=
  { index := [0, 1, 2, 3]
    cols := [("A", [some 0, some 0, some 0, some 9]),
             ("B", [some 10, some 0, some 0, some 0])] }

/-- Witness frame for the aggregation index shape. -/
def dfC3w : DataFrame :=
  { index := [0, 61, 130]
    cols := [("Voltage", [some 230, some 231, some 229])] }

/-- Scenario frame: one hourly bucket of 60 one-minute rows, sub-metering
constantly 1.0 and the mean-aggregated columns constantly 230.0. -/
def dfC4 : DataFrame :=
  { index := List.range 60
    cols := [
      ("Global_active_power", List.replicate 60 (some 230)),
      ("Global_reactive_power", List.replicate 60 (some 230)),
      ("Voltage", List.replicate 60 (some 230)),
      ("Global_intensity", List.replicate 60 (some 230)),
      ("Sub_metering_1", List.replicate 60 (some 1)),
      ("Sub_metering_2", List.replicate 60 (some 1)),
      ("Sub_metering_3", List.replicate 60 (some 1))] }

/-- Witness frame with a constant (zero-variance) checked column. -/
def dfC6w : DataFrame :=
  { index := [0, 1]
    cols := [("A", [some 5, some 5]), ("B", [some 1, some 2])] }

/-- The spec scenario rows: a present value followed by a short gap in
Global_active_power, an all-missing Global_reactive_power, and Voltage
readings 230.0 and 230.1. -/
def dfC7 : DataFrame :=
  { index := [0, 1]
    cols := [("Global_active_power", [some (7/2), none]),
             ("Global_reactive_power", [none, none]),
             ("Voltage", [some 230, some (2301/10)])] }

/-- Witness frame for the loader round trip. -/
def dfC9w : DataFrame :=
  { index := [0]
    cols := [("Voltage", [some 230])] }

/-- Witness frame for the frame-effect property. -/
def dfC10w : DataFrame :=
  { index := [0, 1]
    cols := [("Voltage", [some 230, none])] }

/-- Concrete configuration used by the loader witnesses. -/
def cfgW : Config := { processed_path := "data/processed" }

/-- A concrete stored processed file. -/
def csvC8 : CsvFile :=
  { header := ["Voltage"], rows := [(0, [some 230])] }

/-- A file system holding exactly one processed file. -/
def fsC8 : FileSystem :=
  { files := [(pathJoin cfgW.processed_path "hourly_consumption.csv", csvC8)] }

/-- An empty file system for the round-trip witness. -/
def fsC9 : FileSystem := { files := [] }

/-- The frame left by filtering `dfC1` on A and then on B. -/
def dfC1r : DataFrame :=
  { index := [0, 1, 2]
    cols := [("A", [some 0, some 0, some 0]),
             ("B", [some 10, some 0, some 0])] }

/-- The frame left by filtering `dfC1w` on A and then on B. -/
def dfC1wr : DataFrame :=
  { index := [0, 1, 2]
    cols := [("A", [some 0, some 0, some 0]),
             ("B", [some 10, some 0, some 0])] }

/-- The frame left by filtering `dfC5` on A and then on B. -/
def dfC5rAB : DataFrame :=
  { index := [0, 1, 2]
    cols := [("A", [some 0, some 0, some 0]),
             ("B", [some 10, some 0, some 0])] }

/-- The frame left by filtering `dfC5` on B and then on A. -/
def dfC5rBA : DataFrame :=
  { index := [1, 2, 3]
    cols := [("A", [some 0, some 0, some 9]),
             ("B", [some 0, some 0, some 0])] }

/-! ## Basic lemmas on mask application -/

@[simp]
theorem applyMask_nil_mask (xs : List α) : applyMask [] xs = [] := by
  cases xs <;> rfl

@[simp]
theorem applyMask_nil_list (ms : List Bool) : applyMask ms ([] : List α) = [] := by
  cases ms with
  | nil => rfl
  | cons b ms => cases b <;> rfl

@[simp]
theorem applyMask_cons_true (ms : List Bool) (x : α) (xs : List α) :
    applyMask (true :: ms) (x :: xs) = x :: applyMask ms xs := rfl

@[simp]
theorem applyMask_cons_false (ms : List Bool) (x : α) (xs : List α) :
    applyMask (false :: ms) (x :: xs) = applyMask ms xs := rfl

theorem mem_applyMask {v : α} {ms : List Bool} {xs : List α}
    (h : v ∈ applyMask ms xs) :
    ∃ i, ms.get? i = some true ∧ xs.get? i = some v := by
  induction ms generalizing xs with
  | nil => simp at h
  | cons b ms ih =>
    cases xs with
    | nil => simp at h
    | cons x xs =>
      cases b with
      | false =>
        obtain ⟨i, h1, h2⟩ := ih (by simpa using h)
        exact ⟨i + 1, by simpa using h1, by simpa using h2⟩
      | true =>
        rw [applyMask_cons_true] at h
        rcases List.mem_cons.mp h with h | h
        · exact ⟨0, rfl, by simp [h]⟩
        · obtain ⟨i, h1, h2⟩ := ih h
          exact ⟨i + 1, by simpa using h1, by simpa using h2⟩

theorem applyMask_sublist : ∀ (ms : List Bool) (xs : List α),
    (applyMask ms xs).Sublist xs := by
  intro ms
  induction ms with
  | nil => intro xs; simp
  | cons b ms ih =>
    intro xs
    cases xs with
    | nil => simp
    | cons x xs =>
      cases b with
      | true => exact (ih xs).cons₂ x
      | false => exact (ih xs).cons x

theorem applyMask_allFalse : ∀ (ms : List Bool) (xs : List α),
    (∀ b ∈ ms, b = false) → applyMask ms xs = [] := by
  intro ms
  induction ms with
  | nil => intro xs _; simp
  | cons b ms ih =>
    intro xs h
    have hb : b = false := h b (List.mem_cons_self b ms)
    subst hb
    cases xs with
    | nil => simp
    | cons x xs =>
      rw [applyMask_cons_false]
      exact ih xs (fun b hb => h b (List.mem_cons_of_mem _ hb))

theorem mem_applyMask_map {v : α} (f : α → Bool) :
    ∀ (xs : List α), v ∈ applyMask (xs.map f) xs → v ∈ xs ∧ f v = true := by
  intro xs
  induction xs with
  | nil => intro h; simp at h
  | cons x xs ih =>
    intro h
    rw [List.map_cons] at h
    cases hfx : f x with
    | true =>
      rw [hfx] at h
      rw [applyMask_cons_true] at h
      rcases List.mem_cons.mp h with h | h
      · subst h; exact ⟨List.mem_cons_self _ _, hfx⟩
      · obtain ⟨h1, h2⟩ := ih h
        exact ⟨List.mem_cons_of_mem _ h1, h2⟩
    | false =>
      rw [hfx] at h
      rw [applyMask_cons_false] at h
      obtain ⟨h1, h2⟩ := ih h
      exact ⟨List.mem_cons_of_mem _ h1, h2⟩

theorem getCol_maskDf (mask : List Bool) (df : DataFrame) (c : String) :
    getCol (maskDf mask df) c = applyMask mask (getCol df c) := by
  unfold getCol maskDf
  rw [List.find?_map]
  have hcomp : ((fun p => decide (p.1 = c)) ∘
      fun p : String × List Value => (p.1, applyMask mask p.2)) =
      (fun p : String × List Value => decide (p.1 = c)) := rfl
  rw [hcomp]
  cases hf : df.cols.find? (fun p : String × List Value => decide (p.1 = c)) with
  | none => simp [hf]
  | some p => simp [hf]

/-! ## Lemmas on remove_outliers -/

theorem mem_getCol_filterOnCol {u : Value} {T : ℚ} {df : DataFrame} {c c2 : String}
    (h : u ∈ getCol (filterOnCol T df c2) c) : u ∈ getCol df c := by
  rw [filterOnCol, getCol_maskDf] at h
  exact (applyMask_sublist _ _).subset h

theorem mem_getCol_remove_outliers {u : Value} {T : ℚ} {c : String} :
    ∀ (columns : List String) (df : DataFrame),
      u ∈ getCol (remove_outliers T columns df) c → u ∈ getCol df c := by
  intro columns
  induction columns with
  | nil => intro df h; exact h
  | cons c2 rest ih =>
    intro df h
    have hstep : remove_outliers T (c2 :: rest) df =
        remove_outliers T rest (filterOnCol T df c2) := rfl
    rw [hstep] at h
    exact mem_getCol_filterOnCol (ih (filterOnCol T df c2) h)

theorem keep_of_mem_filterOnCol {u : Value} {T : ℚ} {df : DataFrame} {c : String}
    (h : u ∈ getCol (filterOnCol T df c) c) :
    keepEntry T (popMean (extractVals (getCol df c)))
      (popVar (extractVals (getCol df c))) u = true := by
  rw [filterOnCol, getCol_maskDf] at h
  unfold zKeepMask at h
  by_cases hc : hasMissing (getCol df c) = true ∨ popVar (extractVals (getCol df c)) = 0
  · rw [if_pos hc] at h
    rw [applyMask_allFalse] at h
    · simp at h
    · intro b hb
      obtain ⟨x, _, hxb⟩ := List.mem_map.mp hb
      exact hxb.symm
  · rw [if_neg hc] at h
    exact (mem_applyMask_map _ _ h).2

theorem dfC1_eval :
    remove_outliers (3/2) ["A", "B"] dfC1 = dfC1r := by
  have hmA : zKeepMask (3/2) (getCol dfC1 "A") = [true, true, true, false] := by
    have hg : getCol dfC1 "A" = [some 0, some 0, some 0, some 9] := rfl
    rw [hg]
    norm_num [zKeepMask, hasMissing, extractVals, popVar, popMean, keepEntry,
      List.filterMap_cons]
  have h1 : filterOnCol (3/2) dfC1 "A" = dfC1r := by
    rw [filterOnCol, hmA]; rfl
  have hmB : zKeepMask (3/2)
      (getCol (filterOnCol (3/2) dfC1 "A") "B") = [true, true, true] := by
    rw [h1]
    have hg : getCol dfC1r "B" = [some 10, some 0, some 0] := rfl
    rw [hg]
    norm_num [zKeepMask, hasMissing, extractVals, popVar, popMean, keepEntry,
      List.filterMap_cons]
  show filterOnCol (3/2) (filterOnCol (3/2) dfC1 "A") "B" = dfC1r
  rw [filterOnCol, hmB, h1]
  rfl

/-- Claim C1 counterexample: after `remove_outliers` with threshold 3/2 over
columns A then B, the value 10 of column B is retained, yet its z-score over
the full input population of column B fails the strict threshold test. -/
theorem remove_outliers_full_population_counterexample :
    some (10 : ℚ) ∈ getCol (remove_outliers (3/2) ["A", "B"] dfC1) "B" ∧
    keepEntry (3/2) (popMean (extractVals (getCol dfC1 "B")))
      (popVar (extractVals (getCol dfC1 "B"))) (some (10 : ℚ)) = false := by
  constructor
  · rw [dfC1_eval]
    have hg : getCol dfC1r "B" = [some 10, some 0, some 0] := rfl
    rw [hg]
    exact List.mem_cons_self _ _
  · have hg : getCol dfC1 "B" = [some 10, some 0, some 0, some 0] := rfl
    rw [hg]
    norm_num [hasMissing, extractVals, popVar, popMean, keepEntry,
      List.filterMap_cons]

/-- Claim C1 (amended): every value retained in a checked column passes the
strict z-score test computed over the population of that column at the moment
the column is processed (after the earlier columns already dropped rows),
not over the full input population. -/
theorem remove_outliers_zscore_at_turn (T : ℚ) (pre : List String) (c : String)
    (post : List String) (df : DataFrame) (u : Value)
    (hu : u ∈ getCol (remove_outliers T (pre ++ c :: post) df) c) :
    keepEntry T (popMean (extractVals (getCol (remove_outliers T pre df) c)))
      (popVar (extractVals (getCol (remove_outliers T pre df) c))) u = true := by
  rw [remove_outliers, List.foldl_append] at hu
  have hu2 : u ∈ getCol
      (remove_outliers T post (filterOnCol T (remove_outliers T pre df) c)) c := hu
  exact keep_of_mem_filterOnCol (mem_getCol_remove_outliers post _ hu2)

theorem dfC1w_eval :
    remove_outliers (3/2) ["A", "B"] dfC1w = dfC1wr := by
  have hmA : zKeepMask (3/2) (getCol dfC1w "A") = [true, true, true, false] := by
    have hg : getCol dfC1w "A" = [some 0, some 0, some 0, some 9] := rfl
    rw [hg]
    norm_num [zKeepMask, hasMissing, extractVals, popVar, popMean, keepEntry,
      List.filterMap_cons]
  have h1 : filterOnCol (3/2) dfC1w "A" = dfC1wr := by
    rw [filterOnCol, hmA]; rfl
  have hmB : zKeepMask (3/2)
      (getCol (filterOnCol (3/2) dfC1w "A") "B") = [true, true, true] := by
    rw [h1]
    have hg : getCol dfC1wr "B" = [some 10, some 0, some 0] := rfl
    rw [hg]
    norm_num [zKeepMask, hasMissing, extractVals, popVar, popMean, keepEntry,
      List.filterMap_cons]
  show filterOnCol (3/2) (filterOnCol (3/2) dfC1w "A") "B" = dfC1wr
  rw [filterOnCol, hmB, h1]
  rfl

theorem remove_outliers_zscore_at_turn_witness :
    some (10 : ℚ) ∈ getCol (remove_outliers (3/2) (["A"] ++ "B" :: []) dfC1w) "B" ∧
    keepEntry (3/2) (popMean (extractVals (getCol (remove_outliers (3/2) ["A"] dfC1w) "B")))
      (popVar (extractVals (getCol (remove_outliers (3/2) ["A"] dfC1w) "B")))
      (some (10 : ℚ)) = true := by
  have hmem : some (10 : ℚ) ∈ getCol (remove_outliers (3/2) (["A"] ++ "B" :: []) dfC1w) "B" := by
    have hl : (["A"] ++ "B" :: []) = ["A", "B"] := rfl
    rw [hl, dfC1w_eval]
    have hg : getCol dfC1wr "B" = [some 10, some 0, some 0] := rfl
    rw [hg]
    exact List.mem_cons_self _ _
  exact ⟨hmem,
    remove_outliers_zscore_at_turn (3/2) ["A"] "B" [] dfC1w (some 10) hmem⟩

theorem dfC5_eval_AB :
    remove_outliers (3/2) ["A", "B"] dfC5 = dfC5rAB := by
  have hmA : zKeepMask (3/2) (getCol dfC5 "A") = [true, true, true, false] := by
    have hg : getCol dfC5 "A" = [some 0, some 0, some 0, some 9] := rfl
    rw [hg]
    norm_num [zKeepMask, hasMissing, extractVals, popVar, popMean, keepEntry,
      List.filterMap_cons]
  have h1 : filterOnCol (3/2) dfC5 "A" = dfC5rAB := by
    rw [filterOnCol, hmA]; rfl
  have hmB : zKeepMask (3/2)
      (getCol (filterOnCol (3/2) dfC5 "A") "B") = [true, true, true] := by
    rw [h1]
    have hg : getCol dfC5rAB "B" = [some 10, some 0, some 0] := rfl
    rw [hg]
    norm_num [zKeepMask, hasMissing, extractVals, popVar, popMean, keepEntry,
      List.filterMap_cons]
  show filterOnCol (3/2) (filterOnCol (3/2) dfC5 "A") "B" = dfC5rAB
  rw [filterOnCol, hmB, h1]
  rfl

theorem dfC5_eval_BA :
    remove_outliers (3/2) ["B", "A"] dfC5 = dfC5rBA := by
  have hmB : zKeepMask (3/2) (getCol dfC5 "B") = [false, true, true, true] := by
    have hg : getCol dfC5 "B" = [some 10, some 0, some 0, some 0] := rfl
    rw [hg]
    norm_num [zKeepMask, hasMissing, extractVals, popVar, popMean, keepEntry,
      List.filterMap_cons]
  have h1 : filterOnCol (3/2) dfC5 "B" = dfC5rBA := by
    rw [filterOnCol, hmB]; rfl
  have hmA : zKeepMask (3/2)
      (getCol (filterOnCol (3/2) dfC5 "B") "A") = [true, true, true] := by
    rw [h1]
    have hg : getCol dfC5rBA "A" = [some 0, some 0, some 9] := rfl
    rw [hg]
    norm_num [zKeepMask, hasMissing, extractVals, popVar, popMean, keepEntry,
      List.filterMap_cons]
  show filterOnCol (3/2) (filterOnCol (3/2) dfC5 "B") "A" = dfC5rBA
  rw [filterOnCol, hmA, h1]
  rfl

/-- Claim C5: outlier filtering is sequential, column by column — each step
filters on the current (already reduced) frame — and the column iteration
order matters: in the concrete frame `dfC5`, the order A,B retains rows 0-2
while the order B,A retains rows 1-3. -/
theorem remove_outliers_sequential_order_dependent :
    (∀ (T : ℚ) (c : String) (cs : List String) (df : DataFrame),
        remove_outliers T (c :: cs) df = remove_outliers T cs (filterOnCol T df c)) ∧
    (remove_outliers (3/2) ["A", "B"] dfC5).index = [0, 1, 2] ∧
    (remove_outliers (3/2) ["B", "A"] dfC5).index = [1, 2, 3] := by
  refine ⟨fun T c cs df => rfl, ?_, ?_⟩
  · rw [dfC5_eval_AB]; rfl
  · rw [dfC5_eval_BA]; rfl

/-! ## Lemmas for the zero-variance column claim -/

theorem extractVals_const {q : ℚ} : ∀ (col : List Value),
    (∀ v ∈ col, v = some q) → extractVals col = List.replicate col.length q := by
  intro col
  induction col with
  | nil => intro _; rfl
  | cons v t ih =>
    intro h
    have hv : v = some q := h v (List.mem_cons_self v t)
    subst hv
    rw [extractVals] at ih ⊢
    rw [List.filterMap_cons]
    simp only [id]
    rw [List.length_cons, List.replicate_succ]
    exact congrArg (q :: ·) (ih (fun v hv => h v (List.mem_cons_of_mem _ hv)))

theorem popMean_replicate {q : ℚ} {n : ℕ} (hn : n ≠ 0) :
    popMean (List.replicate n q) = q := by
  rw [popMean, List.sum_replicate, List.length_replicate, nsmul_eq_mul]
  rw [mul_comm, mul_div_assoc]
  rw [div_self (by exact_mod_cast hn), mul_one]

theorem popVar_replicate {q : ℚ} (n : ℕ) :
    popVar (List.replicate n q) = 0 := by
  cases n with
  | zero => rw [popVar]; simp
  | succ m =>
    rw [popVar, popMean_replicate (Nat.succ_ne_zero m), List.map_replicate]
    simp

theorem zKeepMask_const {q : ℚ} {T : ℚ} {col : List Value}
    (h : ∀ v ∈ col, v = some q) :
    zKeepMask T col = col.map (fun _ => false) := by
  rw [zKeepMask, if_pos]
  right
  rw [extractVals_const col h, popVar_replicate]

theorem isEmptyDf_maskDf_allFalse (df : DataFrame) (ms : List Bool)
    (h : ∀ b ∈ ms, b = false) : IsEmptyDf (maskDf ms df) := by
  constructor
  · exact applyMask_allFalse ms df.index h
  · rw [List.all_eq_true]
    intro pr hpr
    obtain ⟨q0, _, rfl⟩ := List.mem_map.mp hpr
    simp [applyMask_allFalse ms q0.2 h]

theorem isEmptyDf_filterOnCol_const {q : ℚ} {T : ℚ} {df : DataFrame} {c : String}
    (h : ∀ v ∈ getCol df c, v = some q) : IsEmptyDf (filterOnCol T df c) := by
  rw [filterOnCol, zKeepMask_const h]
  refine isEmptyDf_maskDf_allFalse df _ ?_
  intro b hb
  obtain ⟨x, _, hxb⟩ := List.mem_map.mp hb
  exact hxb.symm

theorem getCol_of_isEmptyDf {df : DataFrame} {c : String} (h : IsEmptyDf df) :
    getCol df c = [] := by
  rw [getCol]
  cases hf : df.cols.find? (fun p : String × List Value => decide (p.1 = c)) with
  | none => rfl
  | some p =>
    have hm := List.mem_of_find?_eq_some hf
    have hp := List.all_eq_true.mp h.2 p hm
    simpa [List.isEmpty_iff] using hp

theorem zKeepMask_nil (T : ℚ) : zKeepMask T [] = [] := by
  rw [zKeepMask]
  split <;> rfl

theorem isEmptyDf_filterOnCol {T : ℚ} {df : DataFrame} {c : String}
    (h : IsEmptyDf df) : IsEmptyDf (filterOnCol T df c) := by
  rw [filterOnCol, getCol_of_isEmptyDf h, zKeepMask_nil]
  constructor
  · simp [maskDf]
  · rw [List.all_eq_true]
    intro pr hpr
    obtain ⟨q0, _, rfl⟩ := List.mem_map.mp hpr
    simp

theorem isEmptyDf_remove_outliers {T : ℚ} : ∀ (columns : List String)
    (df : DataFrame), IsEmptyDf df → IsEmptyDf (remove_outliers T columns df) := by
  intro columns
  induction columns with
  | nil => intro df h; exact h
  | cons c rest ih =>
    intro df h
    exact ih (filterOnCol T df c) (isEmptyDf_filterOnCol h)

theorem const_getCol_filterOnCol {q : ℚ} {T : ℚ} {df : DataFrame} {c c2 : String}
    (h : ∀ v ∈ getCol df c, v = some q) :
    ∀ v ∈ getCol (filterOnCol T df c2) c, v = some q :=
  fun v hv => h v (mem_getCol_filterOnCol hv)

theorem remove_outliers_const_aux {T : ℚ} {c : String} {q : ℚ} :
    ∀ (columns : List String) (df : DataFrame), c ∈ columns →
      (∀ v ∈ getCol df c, v = some q) →
      IsEmptyDf (remove_outliers T columns df) := by
  intro columns
  induction columns with
  | nil => intro df hc _; exact absurd hc (List.not_mem_nil c)
  | cons c2 rest ih =>
    intro df hc h
    rcases List.mem_cons.mp hc with hceq | hcr
    · subst hceq
      exact isEmptyDf_remove_outliers rest _ (isEmptyDf_filterOnCol_const h)
    · exact ih (filterOnCol T df c2) hcr (const_getCol_filterOnCol h)

/-- Claim C6: if some checked column is constant (zero population variance),
every z-score of that column is NaN, the strict comparison fails everywhere,
and `remove_outliers` returns the empty table regardless of the threshold and
of the other columns. -/
theorem remove_outliers_const_column_empty (T : ℚ) (columns : List String)
    (df : DataFrame) (c : String) (q : ℚ) (hc : c ∈ columns)
    (hconst : ((getCol df c).all (fun v => decide (v = some q))) = true) :
    IsEmptyDf (remove_outliers T columns df) := by
  have h : ∀ v ∈ getCol df c, v = some q := by
    intro v hv
    exact of_decide_eq_true (List.all_eq_true.mp hconst v hv)
  exact remove_outliers_const_aux columns df hc h

theorem remove_outliers_const_column_empty_witness :
    "A" ∈ ["A"] ∧
    ((getCol dfC6w "A").all (fun v => decide (v = some (5 : ℚ)))) = true ∧
    IsEmptyDf (remove_outliers 3 ["A"] dfC6w) :=
  ⟨List.mem_cons_self _ _, by decide,
    remove_outliers_const_column_empty 3 ["A"] dfC6w "A" 5
      (List.mem_cons_self _ _) (by decide)⟩

/-! ## Positional lemmas for the gap-filling steps -/

theorem lt_length_of_get?_eq_some {l : List α} {i : ℕ} {a : α}
    (h : l.get? i = some a) : i < l.length := by
  by_contra hn
  rw [List.get?_eq_none.mpr (Nat.le_of_not_lt hn)] at h
  exact Option.noConfusion h

theorem get?_range_map (f : ℕ → α) {i n : ℕ} (h : i < n) :
    ((List.range n).map f).get? i = some (f i) := by
  rw [List.get?_map, List.get?_range h]
  rfl

theorem fillCol_present (m : FillMethod) (limit : ℕ) {col : List Value} {i : ℕ}
    {v : ℚ} (h : col.get? i = some (some v)) :
    (fillCol m limit col).get? i = some (some v) := by
  have hi : i < col.length := lt_length_of_get?_eq_some h
  rw [fillCol, get?_range_map (fillAt m limit col) hi, fillAt.eq_def, h]

theorem interpCol_present {col : List Value} {i : ℕ} {v : ℚ}
    (h : col.get? i = some (some v)) :
    (interpCol col).get? i = some (some v) := by
  have hi : i < col.length := lt_length_of_get?_eq_some h
  rw [interpCol, get?_range_map (interpAt col) hi, interpAt.eq_def, h]

/-- Claim C2: after `handle_missing_values`, no column of the output holds a
missing value: the final `dropna` retains exactly the rows whose every column
entry is present. -/
theorem handle_missing_values_no_missing (m : FillMethod) (df : DataFrame) :
    ((handle_missing_values m df).cols.all
      (fun p => p.2.all (fun v => v.isSome))) = true := by
  rw [List.all_eq_true]
  intro pr hpr
  rw [List.all_eq_true]
  intro v hv
  have hcols : (handle_missing_values m df).cols =
      (interpDf (fillDf m 6 df)).cols.map
        (fun p => (p.1, applyMask (keepRowMask (interpDf (fillDf m 6 df))) p.2)) := rfl
  rw [hcols] at hpr
  obtain ⟨q0, hq0, rfl⟩ := List.mem_map.mp hpr
  obtain ⟨i, hmi, hgi⟩ := mem_applyMask hv
  rw [keepRowMask, List.get?_map] at hmi
  cases hri : (List.range (interpDf (fillDf m 6 df)).index.length).get? i with
  | none => rw [hri] at hmi; simp at hmi
  | some k =>
    rw [hri] at hmi
    have hlt : i < (interpDf (fillDf m 6 df)).index.length := by
      have := lt_length_of_get?_eq_some hri
      rwa [List.length_range] at this
    rw [List.get?_range hlt] at hri
    have hk : k = i := (Option.some.inj hri).symm
    subst hk
    have hrow : rowComplete (interpDf (fillDf m 6 df)) k = true := by
      simpa using hmi
    rw [rowComplete, List.all_eq_true] at hrow
    have hq := hrow q0 hq0
    rw [hgi] at hq
    simpa using hq

/-! ## Frame effect of handle_missing_values -/

/-- Claim C10: `handle_missing_values` never alters a present value — its
column labels are unchanged, its rows are a masked subsequence of the input
rows, and each output column arises from a filled column that agrees with the
input column on every present entry. -/
theorem handle_missing_values_frame_effect (m : FillMethod) (df : DataFrame) :
    ((handle_missing_values m df).cols.map Prod.fst = df.cols.map Prod.fst) ∧
    (handle_missing_values m df).index.Sublist df.index ∧
    ∃ mask : List Bool,
      (handle_missing_values m df).index = applyMask mask df.index ∧
      List.Forall₂ (fun pin pout : String × List Value =>
          pout.1 = pin.1 ∧ ∃ c2, pout.2 = applyMask mask c2 ∧
            ∀ i v, pin.2.get? i = some (some v) → c2.get? i = some (some v))
        df.cols (handle_missing_values m df).cols := by
  have hcols : (handle_missing_values m df).cols =
      df.cols.map (fun p => (p.1,
        applyMask (keepRowMask (interpDf (fillDf m 6 df)))
          (interpCol (fillCol m 6 p.2)))) := by
    show ((df.cols.map _).map _).map _ = _
    rw [List.map_map, List.map_map]
    rfl
  refine ⟨?_, ?_, ?_⟩
  · rw [hcols, List.map_map]
    rfl
  · show (applyMask (keepRowMask (interpDf (fillDf m 6 df))) df.index).Sublist df.index
    exact applyMask_sublist _ _
  · refine ⟨keepRowMask (interpDf (fillDf m 6 df)), rfl, ?_⟩
    rw [hcols, List.forall₂_map_right_iff, List.forall₂_same]
    intro p _
    exact ⟨rfl, interpCol (fillCol m 6 p.2), rfl,
      fun i v hv => interpCol_present (fillCol_present m 6 hv)⟩

theorem handle_missing_values_frame_effect_witness :
    ((handle_missing_values FillMethod.ffill dfC10w).cols.map Prod.fst =
      dfC10w.cols.map Prod.fst) ∧
    (handle_missing_values FillMethod.ffill dfC10w).index.Sublist dfC10w.index ∧
    ∃ mask : List Bool,
      (handle_missing_values FillMethod.ffill dfC10w).index =
        applyMask mask dfC10w.index ∧
      List.Forall₂ (fun pin pout : String × List Value =>
          pout.1 = pin.1 ∧ ∃ c2, pout.2 = applyMask mask c2 ∧
            ∀ i v, pin.2.get? i = some (some v) → c2.get? i = some (some v))
        dfC10w.cols (handle_missing_values FillMethod.ffill dfC10w).cols :=
  handle_missing_values_frame_effect FillMethod.ffill dfC10w

/-! ## The forward-fill and interpolation behaviour (claim C7) -/

theorem findPrevValid_eq {col : List Value} {v : ℚ} :
    ∀ (i j : ℕ), j ≤ i → col.get? j = some (some v) →
      (∀ k, j < k → k ≤ i → col.get? k = some none) →
      findPrevValid col i = some (j, v) := by
  intro i
  induction i with
  | zero =>
    intro j hji hj _
    have hj0 : j = 0 := Nat.le_zero.mp hji
    subst hj0
    rw [List.get?_eq_getElem?] at hj
    simp [findPrevValid, hj]
  | succ n ih =>
    intro j hji hj hgap
    rcases Nat.lt_or_ge j (n + 1) with hlt | hge
    · have hcur : col.get? (n + 1) = some none := hgap (n + 1) hlt (le_refl _)
      have hstep : findPrevValid col (n + 1) = findPrevValid col n := by
        rw [List.get?_eq_getElem?] at hcur
        simp [findPrevValid, hcur]
      rw [hstep]
      exact ih j (Nat.lt_succ_iff.mp hlt) hj
        (fun k h1 h2 => hgap k h1 (Nat.le_succ_of_le h2))
    · have hj1 : j = n + 1 := Nat.le_antisymm hji hge
      subst hj1
      rw [List.get?_eq_getElem?] at hj
      simp [findPrevValid, hj]

theorem fillCol_ffill_gap {col : List Value} {i j : ℕ} {v : ℚ}
    (hji : j < i) (hj : col.get? j = some (some v))
    (hgap : ((List.range' (j + 1) (i - j)).all
      (fun k => decide (col.get? k = some none))) = true)
    (hlim : i - j ≤ 6) :
    (fillCol FillMethod.ffill 6 col).get? i = some (some v) := by
  have hmem : ∀ k, j < k → k ≤ i → col.get? k = some none := by
    intro k h1 h2
    have hk : k ∈ List.range' (j + 1) (i - j) := by
      rw [List.mem_range'_1]
      omega
    exact of_decide_eq_true (List.all_eq_true.mp hgap k hk)
  have hiN : col.get? i = some none := hmem i hji (le_refl i)
  have hiL : i < col.length := lt_length_of_get?_eq_some hiN
  rw [fillCol, get?_range_map (fillAt FillMethod.ffill 6 col) hiL, fillAt.eq_def, hiN]
  show some (match findPrevValid col i with
    | some (j, v) => if i - j ≤ 6 then some v else none
    | none => none) = some (some v)
  rw [findPrevValid_eq i j (Nat.le_of_lt hji) hj hmem]
  show some (if i - j ≤ 6 then some v else none) = some (some v)
  rw [if_pos hlim]

theorem interpCol_one_sided {col : List Value} {i k : ℕ} {v : ℚ}
    (h0 : col.get? i = some none) (hp : findPrevValid col i = none)
    (hn : findNextValid col i = some (k, v)) :
    (interpCol col).get? i = some (some v) := by
  have hiL : i < col.length := lt_length_of_get?_eq_some h0
  rw [interpCol, get?_range_map (interpAt col) hiL, interpAt.eq_def, h0]
  show some (match findPrevValid col i, findNextValid col i with
    | some (j, vj), some (k, vk) =>
      some (vj + (vk - vj) * (((i : ℚ) - (j : ℚ)) / ((k : ℚ) - (j : ℚ))))
    | none, some (_, vk) => some vk
    | some (_, vj), none => some vj
    | none, none => none) = some (some v)
  rw [hp, hn]

/-- Claim C7: `handle_missing_values` is exactly the three steps
fill-with-limit-6, then bidirectional linear interpolation, then dropping the
rows still missing; under forward fill a missing entry within 6 positions of
the last present value receives that value (so one-sided gaps at the start of
a column are closed by the interpolation step instead); in the spec scenario
the second row of Global_active_power receives the first row value 3.5. -/
theorem handle_missing_values_three_steps :
    (∀ (m : FillMethod) (df : DataFrame),
      handle_missing_values m df = dropna (interpDf (fillDf m 6 df))) ∧
    (∀ (col : List Value) (i j : ℕ) (v : ℚ),
      j < i → col.get? j = some (some v) →
      ((List.range' (j + 1) (i - j)).all
        (fun k => decide (col.get? k = some none))) = true →
      i - j ≤ 6 →
      (fillCol FillMethod.ffill 6 col).get? i = some (some v)) ∧
    (∀ (col : List Value) (i k : ℕ) (v : ℚ),
      col.get? i = some none → findPrevValid col i = none →
      findNextValid col i = some (k, v) →
      (interpCol col).get? i = some (some v)) ∧
    getCol (fillDf FillMethod.ffill 6 dfC7) "Global_active_power" =
      [some (7/2), some (7/2)] := by
  refine ⟨fun m df => rfl, ?_, ?_, ?_⟩
  · intro col i j v hji hj hgap hlim
    exact fillCol_ffill_gap hji hj hgap hlim
  · intro col i k v h0 hp hn
    exact interpCol_one_sided h0 hp hn
  · rfl

theorem handle_missing_values_three_steps_witness :
    (0 : ℕ) < 1 ∧
    ([some (7/2 : ℚ), none].get? 0 = some (some (7/2 : ℚ))) ∧
    ((List.range' (0 + 1) (1 - 0)).all
      (fun k => decide ([some (7/2 : ℚ), none].get? k = some none))) = true ∧
    (1 - 0 : ℕ) ≤ 6 ∧
    (fillCol FillMethod.ffill 6 [some (7/2 : ℚ), none]).get? 1 =
      some (some (7/2 : ℚ)) ∧
    ([none, some (2 : ℚ)].get? 0 = some none) ∧
    findPrevValid [none, some (2 : ℚ)] 0 = none ∧
    findNextValid [none, some (2 : ℚ)] 0 = some (1, 2) ∧
    (interpCol [none, some (2 : ℚ)]).get? 0 = some (some (2 : ℚ)) :=
  ⟨Nat.zero_lt_one, rfl, by decide, by decide,
    handle_missing_values_three_steps.2.1 [some (7/2 : ℚ), none] 1 0 (7/2)
      Nat.zero_lt_one rfl (by decide) (by decide),
    rfl, rfl, rfl,
    handle_missing_values_three_steps.2.2.1 [none, some (2 : ℚ)] 0 1 2
      rfl rfl rfl⟩

/-! ## Shape of the aggregated index (claim C3) -/

theorem periodicList_chain (p : ℕ) : ∀ (n lo : ℕ),
    List.Chain' (fun a b => b = a + p) (periodicList lo p n) := by
  intro n
  induction n with
  | zero => intro lo; exact List.chain'_nil
  | succ n ih =>
    intro lo
    show List.Chain' (fun a b => b = a + p) (lo :: periodicList (lo + p) p n)
    rw [List.chain'_cons']
    refine ⟨?_, ih (lo + p)⟩
    intro y hy
    cases n with
    | zero => simp [periodicList] at hy
    | succ m =>
      have hh : (periodicList (lo + p) p (m + 1)).head? = some (lo + p) := rfl
      rw [hh] at hy
      simp at hy
      rw [hy]

theorem bucketList_chain (p : ℕ) (idx : List ℕ) :
    List.Chain' (fun a b => b = a + p) (bucketList p idx) := by
  cases idx with
  | nil => exact List.chain'_nil
  | cons t ts => exact periodicList_chain p _ _

/-- Claim C3: the index of `aggregate_data` has one entry per period at the
configured granularity (each successive timestamp is exactly `p` later), is
strictly increasing, and holds no duplicate timestamps. -/
theorem aggregate_data_index_shape (df : DataFrame) (p : ℕ) (hp : 0 < p) :
    List.Chain' (fun a b => b = a + p) (aggregate_data p df).index ∧
    List.Sorted (· < ·) (aggregate_data p df).index ∧
    (aggregate_data p df).index.Nodup := by
  have hchain : List.Chain' (fun a b => b = a + p) (aggregate_data p df).index :=
    bucketList_chain p df.index
  have hlt : List.Chain' (· < ·) (aggregate_data p df).index :=
    hchain.imp (fun hab => by omega)
  have hpair : List.Pairwise (· < ·) (aggregate_data p df).index :=
    List.chain'_iff_pairwise.mp hlt
  exact ⟨hchain, hpair, hpair.imp Nat.ne_of_lt⟩

theorem aggregate_data_index_shape_witness :
    (0 : ℕ) < 60 ∧
    List.Chain' (fun a b => b = a + 60) (aggregate_data 60 dfC3w).index ∧
    List.Sorted (· < ·) (aggregate_data 60 dfC3w).index ∧
    (aggregate_data 60 dfC3w).index.Nodup :=
  ⟨Nat.succ_pos 59, (aggregate_data_index_shape dfC3w 60 (Nat.succ_pos 59)).1,
   (aggregate_data_index_shape dfC3w 60 (Nat.succ_pos 59)).2.1,
   (aggregate_data_index_shape dfC3w 60 (Nat.succ_pos 59)).2.2⟩

/-! ## Aggregation policy (claim C4) -/

theorem sumAgg_replicate_one :
    sumAgg (List.replicate 60 (some (1 : ℚ))) = some 60 := by
  have hx : extractVals (List.replicate 60 (some (1 : ℚ))) =
      List.replicate 60 (1 : ℚ) := rfl
  rw [sumAgg, hx, List.sum_replicate, nsmul_eq_mul]
  norm_num

theorem meanAgg_replicate_const :
    meanAgg (List.replicate 60 (some (230 : ℚ))) = some 230 := by
  have hx : extractVals (List.replicate 60 (some (230 : ℚ))) =
      List.replicate 60 (230 : ℚ) := rfl
  rw [meanAgg, hx]
  rw [if_neg (by simp)]
  rw [popMean_replicate (by norm_num)]

set_option maxRecDepth 8000 in
/-- Claim C4: `aggregate_data` takes the bucket mean of the four
power/voltage/intensity columns and the bucket sum of the three sub-metering
columns; on the 60-row constant scenario frame the hourly sub-metering sum is
60.0 and the hourly Voltage mean is 230.0. -/
theorem aggregate_data_policy :
    (∀ (p : ℕ) (df : DataFrame),
      getCol (aggregate_data p df) "Global_active_power" =
        (bucketList p df.index).map (fun b =>
          meanAgg (colValsInBucket p b df.index (getCol df "Global_active_power"))) ∧
      getCol (aggregate_data p df) "Global_reactive_power" =
        (bucketList p df.index).map (fun b =>
          meanAgg (colValsInBucket p b df.index (getCol df "Global_reactive_power"))) ∧
      getCol (aggregate_data p df) "Voltage" =
        (bucketList p df.index).map (fun b =>
          meanAgg (colValsInBucket p b df.index (getCol df "Voltage"))) ∧
      getCol (aggregate_data p df) "Global_intensity" =
        (bucketList p df.index).map (fun b =>
          meanAgg (colValsInBucket p b df.index (getCol df "Global_intensity"))) ∧
      getCol (aggregate_data p df) "Sub_metering_1" =
        (bucketList p df.index).map (fun b =>
          sumAgg (colValsInBucket p b df.index (getCol df "Sub_metering_1"))) ∧
      getCol (aggregate_data p df) "Sub_metering_2" =
        (bucketList p df.index).map (fun b =>
          sumAgg (colValsInBucket p b df.index (getCol df "Sub_metering_2"))) ∧
      getCol (aggregate_data p df) "Sub_metering_3" =
        (bucketList p df.index).map (fun b =>
          sumAgg (colValsInBucket p b df.index (getCol df "Sub_metering_3")))) ∧
    getCol (aggregate_data 60 dfC4) "Sub_metering_1" = [some 60] ∧
    getCol (aggregate_data 60 dfC4) "Voltage" = [some 230] := by
  refine ⟨fun p df => ⟨rfl, rfl, rfl, rfl, rfl, rfl, rfl⟩, ?_, ?_⟩
  · have h1 : getCol (aggregate_data 60 dfC4) "Sub_metering_1" =
        [sumAgg (colValsInBucket 60 0 dfC4.index (getCol dfC4 "Sub_metering_1"))] := rfl
    have h2 : colValsInBucket 60 0 dfC4.index (getCol dfC4 "Sub_metering_1") =
        List.replicate 60 (some (1 : ℚ)) := rfl
    rw [h1, h2, sumAgg_replicate_one]
  · have h1 : getCol (aggregate_data 60 dfC4) "Voltage" =
        [meanAgg (colValsInBucket 60 0 dfC4.index (getCol dfC4 "Voltage"))] := rfl
    have h2 : colValsInBucket 60 0 dfC4.index (getCol dfC4 "Voltage") =
        List.replicate 60 (some (230 : ℚ)) := rfl
    rw [h1, h2, meanAgg_replicate_const]

/-! ## Loader lemmas (claims C8 and C9) -/

theorem map_range_get?_getD (l : List α) (d : α) :
    (List.range l.length).map (fun i => (l.get? i).getD d) = l := by
  induction l with
  | nil => rfl
  | cons a t ih =>
    rw [List.length_cons, List.range_succ_eq_map, List.map_cons, List.map_map]
    have h0 : (((a :: t).get? 0).getD d) = a := rfl
    rw [h0]
    have hcomp : ((fun i => (((a :: t).get? i).getD d)) ∘ Nat.succ) =
        (fun i => ((t.get? i).getD d)) := rfl
    rw [hcomp, ih]

theorem colsFromRows_spec (f : ℕ → ℕ) (cols : List (String × List Value)) (n : ℕ) :
    ∀ (cs : List (String × List Value)) (j : ℕ),
      (∀ k, cs.get? k = cols.get? (j + k)) →
      (∀ pr ∈ cs, pr.2.length = n) →
      colsFromRows (cs.map Prod.fst) j
        ((List.range n).map (fun i =>
          (f i, cols.map (fun p => (p.2.get? i).getD none)))) = cs := by
  intro cs
  induction cs with
  | nil => intro j _ _; rfl
  | cons pr cs ih =>
    intro j hget hlen
    rw [List.map_cons]
    show (pr.1, ((List.range n).map (fun i =>
        (f i, cols.map (fun p => (p.2.get? i).getD none)))).map
          (fun r => (r.2.get? j).getD none)) ::
      colsFromRows (cs.map Prod.fst) (j + 1)
        ((List.range n).map (fun i =>
          (f i, cols.map (fun p => (p.2.get? i).getD none)))) = pr :: cs
    have hj : cols.get? j = some pr := (hget 0).symm
    have hhead : ((List.range n).map (fun i =>
        (f i, cols.map (fun p => (p.2.get? i).getD none)))).map
          (fun r => (r.2.get? j).getD none) = pr.2 := by
      rw [List.map_map]
      have hcomp : ((fun r : ℕ × List Value => (r.2.get? j).getD none) ∘
          (fun i => (f i, cols.map (fun p => (p.2.get? i).getD none)))) =
          (fun i => ((cols.map (fun p => (p.2.get? i).getD none)).get? j).getD none) := rfl
      rw [hcomp]
      have hent : ∀ i : ℕ,
          ((cols.map (fun p => (p.2.get? i).getD none)).get? j).getD none =
          (pr.2.get? i).getD none := by
        intro i
        rw [List.get?_map, hj]
        rfl
      rw [funext hent]
      have hlen2 : pr.2.length = n := hlen pr (List.mem_cons_self _ _)
      rw [← hlen2]
      exact map_range_get?_getD pr.2 none
    have htail := ih (j + 1)
      (fun k => by
        have hk := hget (k + 1)
        have harith : j + (k + 1) = (j + 1) + k := by omega
        rwa [harith] at hk)
      (fun q hq => hlen q (List.mem_cons_of_mem _ hq))
    rw [hhead, htail]

theorem fromCsv_toCsv (df : DataFrame)
    (h : ∀ pr ∈ df.cols, pr.2.length = df.index.length) :
    fromCsv (toCsv df) = df := by
  cases df with
  | mk idx cols =>
    refine congrArg₂ DataFrame.mk ?_ ?_
    · show List.map Prod.fst ((List.range idx.length).map (fun i =>
        (((idx.get? i).getD 0), cols.map (fun p => (p.2.get? i).getD none)))) = idx
      rw [List.map_map]
      have hcomp : (Prod.fst ∘ (fun i => (((idx.get? i).getD 0),
          cols.map (fun p => (p.2.get? i).getD none)))) =
          (fun i => ((idx.get? i).getD 0)) := rfl
      rw [hcomp]
      exact map_range_get?_getD idx 0
    · exact colsFromRows_spec (fun i => (idx.get? i).getD 0) cols idx.length cols 0
        (fun k => by rw [Nat.zero_add]) h

theorem lookupFile_putFile (fs : FileSystem) (path : String) (f : CsvFile) :
    lookupFile (putFile fs path f) path = some f := by
  rw [lookupFile, putFile]
  rw [List.find?_cons_of_pos _ (by simp)]
  rfl

/-- Claim C8: `load_processed_data` fails with the dedicated file-not-found
error — a condition distinct from any other I/O error — exactly when no file
exists at the processed-directory path joined with the name; when the file
exists it returns the table whose index is the parsed first column. -/
theorem load_processed_data_spec (cfg : Config) (fs : FileSystem)
    (filename : String) :
    (lookupFile fs (pathJoin cfg.processed_path filename) = none →
      load_processed_data cfg fs filename = Except.error LoadError.fileNotFound) ∧
    (∀ f : CsvFile, lookupFile fs (pathJoin cfg.processed_path filename) = some f →
      load_processed_data cfg fs filename = Except.ok (fromCsv f) ∧
      (fromCsv f).index = f.rows.map Prod.fst) ∧
    decide (LoadError.fileNotFound = LoadError.ioError) = false := by
  refine ⟨?_, ?_, rfl⟩
  · intro h
    rw [load_processed_data.eq_def, h]
  · intro f h
    refine ⟨?_, rfl⟩
    rw [load_processed_data.eq_def, h]

theorem load_processed_data_spec_witness :
    lookupFile fsC8 (pathJoin cfgW.processed_path "missing.csv") = none ∧
    load_processed_data cfgW fsC8 "missing.csv" =
      Except.error LoadError.fileNotFound ∧
    lookupFile fsC8 (pathJoin cfgW.processed_path "hourly_consumption.csv") =
      some csvC8 ∧
    load_processed_data cfgW fsC8 "hourly_consumption.csv" =
      Except.ok (fromCsv csvC8) :=
  ⟨rfl, (load_processed_data_spec cfgW fsC8 "missing.csv").1 rfl,
   rfl, ((load_processed_data_spec cfgW fsC8 "hourly_consumption.csv").2.1
      csvC8 rfl).1⟩

/-- Claim C9: saving a (well-formed, aligned) table and loading it back under
the same name returns the table unchanged; in this exact-arithmetic model the
"up to floating-point formatting" caveat of the spec is exact equality. -/
theorem save_load_roundtrip (cfg : Config) (fs : FileSystem) (df : DataFrame)
    (filename : String)
    (halign : (df.cols.all
      (fun pr => decide (pr.2.length = df.index.length))) = true) :
    load_processed_data cfg (save_processed_data cfg fs df filename) filename =
      Except.ok df := by
  have h : ∀ pr ∈ df.cols, pr.2.length = df.index.length := by
    intro pr hpr
    exact of_decide_eq_true (List.all_eq_true.mp halign pr hpr)
  rw [load_processed_data.eq_def, save_processed_data, lookupFile_putFile]
  show Except.ok (fromCsv (toCsv df)) = Except.ok df
  rw [fromCsv_toCsv df h]

theorem save_load_roundtrip_witness :
    ((dfC9w.cols.all
      (fun pr => decide (pr.2.length = dfC9w.index.length))) = true) ∧
    load_processed_data cfgW
      (save_processed_data cfgW fsC9 dfC9w "hourly_consumption.csv")
      "hourly_consumption.csv" = Except.ok dfC9w :=
  ⟨rfl, save_load_roundtrip cfgW fsC9 dfC9w "hourly_consumption.csv" rfl⟩

end EnergyForecast
